import Mathlib

/-!
Verification development for the log-tailing and error-block extraction
core of the prod-monitoring-agent repository.  Strings are modelled as
`List Char`; Python regular-expression operations used by the source
(`src/agents/log_monitor.py`) are embedded as executable functions with
the same matching semantics on ASCII input.
-/

set_option maxRecDepth 4000

/-- Convert a string literal to the `List Char` representation used throughout. -/
def str (s : String) : List Char := s.toList

/-- The ASCII escape character `\x1B` that introduces an ANSI sequence. -/
def escChar : Char := Char.ofNat 0x1B

/-- Whitespace characters stripped by Python `str.rstrip` / `str.strip`
(ASCII fragment of Python's notion of whitespace). -/
def isPySpace (c : Char) : Bool :=
  c = ' ' || c = Char.ofNat 0x09 || c = Char.ofNat 0x0A || c = Char.ofNat 0x0D ||
  c = Char.ofNat 0x0B || c = Char.ofNat 0x0C

/-- ASCII decimal digit, the `\d` class of the source regexes on ASCII input. -/
def isDigit (c : Char) : Bool := '0' ≤ c && c ≤ '9'

/-- ASCII word character, the `\w` class / `\b` boundary class on ASCII input. -/
def isWordChar (c : Char) : Bool :=
  isDigit c || ('a' ≤ c && c ≤ 'z') || ('A' ≤ c && c ≤ 'Z') || c = '_'

/-- Numeric value of a digit character. -/
def digitVal (c : Char) : Nat := c.toNat - 48

/-! ## LineSanitizer: `AdvancedLogMonitor.clean_line` (log_monitor.py:69-70)
with the ANSI pattern of log_monitor.py:52 — `ESC` followed by either one
character in `[@-Z\\-_]` or by `[`, parameter bytes, intermediate bytes and
one final byte. -/

/-- Character class `[@-Z\\-_]`: the single-character alternative after `ESC`. -/
def isAnsiSingle (c : Char) : Bool :=
  (0x40 ≤ c.toNat && c.toNat ≤ 0x5A) || (0x5C ≤ c.toNat && c.toNat ≤ 0x5F)

/-- Character class `[0-?]` (CSI parameter bytes). -/
def isAnsiParam (c : Char) : Bool := 0x30 ≤ c.toNat && c.toNat ≤ 0x3F

/-- Character class of CSI intermediate bytes, 0x20 to 0x2F. -/
def isAnsiInter (c : Char) : Bool := 0x20 ≤ c.toNat && c.toNat ≤ 0x2F

/-- Character class `[@-~]` (CSI final byte). -/
def isAnsiFinal (c : Char) : Bool := 0x40 ≤ c.toNat && c.toNat ≤ 0x7E

/-- Try to match the part of the ANSI pattern after the initial `ESC` at the
head of `t`; on success return the remaining characters after the match.
The two alternatives are tried in the pattern's order; their character
classes are disjoint from the follow sets, so greedy matching is exact. -/
def ansiTail (t : List Char) : Option (List Char) :=
  match t with
  | [] => none
  | c :: t' =>
    if isAnsiSingle c then some t'
    else if c = '[' then
      match (t'.dropWhile isAnsiParam).dropWhile isAnsiInter with
      | d :: v => if isAnsiFinal d then some v else none
      | [] => none
    else none

/-- `self.ansi_escape.sub('', line)`: remove all non-overlapping matches of the
ANSI pattern, scanning left to right (no rescan of produced text, matching
Python `re.sub`).  `fuel` is the length of the input; it only ensures
structural recursion. -/
def ansiSubF : Nat → List Char → List Char
  | 0, s => s
  | _ + 1, [] => []
  | f + 1, c :: t =>
    if c = escChar then
      match ansiTail t with
      | some rest => ansiSubF f rest
      | none => c :: ansiSubF f t
    else c :: ansiSubF f t

/-- Python `str.rstrip()`: drop trailing whitespace. -/
def rstripPy (s : List Char) : List Char := (s.reverse.dropWhile isPySpace).reverse

/-- `AdvancedLogMonitor.clean_line` (log_monitor.py:69-70):
`self.ansi_escape.sub('', line).rstrip()`. -/
def clean_line (line : List Char) : List Char := rstripPy (ansiSubF line.length line)

/-- Python `str.strip()`: drop leading and trailing whitespace. -/
def stripPy (s : List Char) : List Char := rstripPy (s.dropWhile isPySpace)

/-! ## TimestampDetector: `AdvancedLogMonitor.detect_timestamp` (log_monitor.py:72-77)
with the three-alternative pattern of log_monitor.py:54-58: an ISO-like
date-time `\d{2,4} sep \d{2} sep \d{2} [ T] \d{2}:\d{2}:\d{2}(?:,\d+)?`
(sep one of dash or slash), a syslog-like `\w{3} \d{1,2} \d{2}:\d{2}:\d{2}`,
and a bare `\d{2}:\d{2}:\d{2}\.\d{3}`.  Each alternative is embedded as a
matcher that, applied at a position, returns the remaining characters after
the match. -/

/-- Consume exactly `k` digits. -/
def eatDigits (k : Nat) (s : List Char) : Option (List Char) :=
  if (s.take k).length = k && (s.take k).all isDigit then some (s.drop k) else none

/-- Consume one character from the given class. -/
def eatClass (p : Char → Bool) (s : List Char) : Option (List Char) :=
  match s with
  | c :: t => if p c then some t else none
  | [] => none

/-- Consume one fixed character. -/
def eatChar (c : Char) (s : List Char) : Option (List Char) :=
  eatClass (fun d => d = c) s

/-- Tail of alternative 1 after the leading `\d{2,4}`: a separator (dash or
slash), `\d{2}`, a separator, `\d{2}`, space or `T`, then `\d{2}:\d{2}:\d{2}`
and an optional comma-fraction `(?:,\d+)?`. -/
def ts1Rest (s : List Char) : Option (List Char) := do
  let s ← eatClass (fun c => c = '-' || c = '/') s
  let s ← eatDigits 2 s
  let s ← eatClass (fun c => c = '-' || c = '/') s
  let s ← eatDigits 2 s
  let s ← eatClass (fun c => c = ' ' || c = 'T') s
  let s ← eatDigits 2 s
  let s ← eatChar ':' s
  let s ← eatDigits 2 s
  let s ← eatChar ':' s
  let s ← eatDigits 2 s
  -- optional greedy `(?:,\d+)?`
  match s with
  | ',' :: r =>
    if (r.takeWhile isDigit).length ≥ 1 then some (r.dropWhile isDigit) else some s
  | _ => some s

/-- Alternative 1 at a position.  The greedy `\d{2,4}` tries 4, 3, then 2
digits, backtracking exactly as the Python engine does. -/
def ts1End (s : List Char) : Option (List Char) :=
  match eatDigits 4 s with
  | some r =>
    match ts1Rest r with
    | some v => some v
    | none =>
      match eatDigits 3 s with
      | some r3 =>
        match ts1Rest r3 with
        | some v => some v
        | none => (eatDigits 2 s).bind ts1Rest
      | none => (eatDigits 2 s).bind ts1Rest
  | none =>
    match eatDigits 3 s with
    | some r3 =>
      match ts1Rest r3 with
      | some v => some v
      | none => (eatDigits 2 s).bind ts1Rest
    | none => (eatDigits 2 s).bind ts1Rest

/-- Trailing `\d{2}:\d{2}:\d{2}` shared by alternatives 2 and 3. -/
def tsHMS (s : List Char) : Option (List Char) := do
  let s ← eatDigits 2 s
  let s ← eatChar ':' s
  let s ← eatDigits 2 s
  let s ← eatChar ':' s
  eatDigits 2 s

/-- Alternative 2 at a position: `\w{3} \d{1,2} \d{2}:\d{2}:\d{2}`, the greedy
`\d{1,2}` trying 2 digits then 1. -/
def ts2End (s : List Char) : Option (List Char) := do
  let s ← eatClass isWordChar s
  let s ← eatClass isWordChar s
  let s ← eatClass isWordChar s
  let s ← eatChar ' ' s
  match (eatDigits 2 s).bind (eatChar ' ') with
  | some r => tsHMS r
  | none =>
    match (eatDigits 1 s).bind (eatChar ' ') with
    | some r => tsHMS r
    | none => none

/-- Alternative 3 at a position: `\d{2}:\d{2}:\d{2}\.\d{3}`. -/
def ts3End (s : List Char) : Option (List Char) := do
  let s ← tsHMS s
  let s ← eatChar '.' s
  eatDigits 3 s

/-- Result of trying the three alternatives, in the pattern's order, at one
position; returns the matched substring (the non-`None` group). -/
def tsMatchAt (s : List Char) : Option (List Char) :=
  match ts1End s with
  | some rest => some (s.take (s.length - rest.length))
  | none =>
    match ts2End s with
    | some rest => some (s.take (s.length - rest.length))
    | none =>
      match ts3End s with
      | some rest => some (s.take (s.length - rest.length))
      | none => none

/-- `re.search` over the alternation: leftmost position wins, alternative
order breaks ties at a position. -/
def tsSearch : List Char → Option (List Char)
  | [] => none
  | c :: t =>
    match tsMatchAt (c :: t) with
    | some m => some m
    | none => tsSearch t

/-- `AdvancedLogMonitor.detect_timestamp` (log_monitor.py:72-77): clean the
line, search the timestamp pattern, return the matched substring if any. -/
def detect_timestamp (line : List Char) : Option (List Char) :=
  tsSearch (clean_line line)

/-! ## LevelClassifier: `AdvancedLogMonitor.detect_log_level` (log_monitor.py:79-84). -/

/-- `AdvancedLogMonitor.COMMON_LOG_LEVELS` (log_monitor.py:19). -/
def COMMON_LOG_LEVELS : List (List Char) :=
  [str "ERROR", str "WARN", str "WARNING", str "INFO", str "DEBUG",
   str "CRITICAL", str "FATAL"]

/-- Case-insensitive equality of ASCII characters (`re.IGNORECASE`). -/
def ciEq (a b : Char) : Bool := a.toLower = b.toLower

/-- Does `kw` occur case-insensitively at the head of `s`? -/
def ciStarts : List Char → List Char → Bool
  | [], _ => true
  | _ :: _, [] => false
  | k :: ks, c :: cs => ciEq c k && ciStarts ks cs

/-- Word-boundary test for the position before a keyword occurrence: the
previous character (if any) must not be a word character.  All keywords
begin and end with word characters, so `\b` reduces to this. -/
def boundaryBefore : Option Char → Bool
  | none => true
  | some c => !isWordChar c

/-- Word-boundary test for the position after a keyword occurrence. -/
def boundaryAfter : List Char → Bool
  | [] => true
  | c :: _ => !isWordChar c

/-- A whole-word, case-insensitive match of `kw` at the head of `s`, where
`prev` is the character just before this position (`none` at the start). -/
def matchKwAt (kw : List Char) (prev : Option Char) (s : List Char) : Bool :=
  boundaryBefore prev && ciStarts kw s && boundaryAfter (s.drop kw.length)

/-- `re.search(rf'\b{level}\b', s, re.IGNORECASE)` as a Boolean: scan every
position carrying the previous character for the boundary test. -/
def hasWordFrom (kw : List Char) (prev : Option Char) (s : List Char) : Bool :=
  match s with
  | [] => false
  | c :: t => matchKwAt kw prev (c :: t) || hasWordFrom kw (some c) t

/-- Whole-word case-insensitive occurrence of `kw` in `s`. -/
def hasLevelWord (kw : List Char) (s : List Char) : Bool := hasWordFrom kw none s

/-- The scan of log_monitor.py:81-83: first keyword of the list that occurs
whole-word case-insensitively, else `UNKNOWN`.  (The source returns
`level.upper()`; the keywords are already upper-case.) -/
def findLevel : List (List Char) → List Char → List Char
  | [], _ => str "UNKNOWN"
  | kw :: kws, s => if hasLevelWord kw s then kw else findLevel kws s

/-- `AdvancedLogMonitor.detect_log_level` (log_monitor.py:79-84). -/
def detect_log_level (line : List Char) : List Char :=
  findLevel COMMON_LOG_LEVELS (clean_line line)

/-! ## TitleExtractor: `AdvancedLogMonitor.extract_clean_title` (log_monitor.py:98-130). -/

/-- `self.timestamp_regex.sub('', s)` (log_monitor.py:107): remove every
non-overlapping timestamp match, scanning left to right; every match is
non-empty, so resuming after the match always advances.  `fuel` is the
input length, for structural recursion. -/
def tsSubF : Nat → List Char → List Char
  | 0, s => s
  | _ + 1, [] => []
  | f + 1, c :: t =>
    match tsMatchAt (c :: t) with
    | some m => tsSubF f ((c :: t).drop m.length)
    | none => c :: tsSubF f t

/-- One `re.sub(rf'\b{level}\b', '', s, flags=re.IGNORECASE)` step
(log_monitor.py:110-111).  `prev` is the character preceding the current
position in the original string (scanning resumes after each removed match,
so the preceding character is then the last character of the match). -/
def kwSubF (kw : List Char) : Nat → Option Char → List Char → List Char
  | 0, _, s => s
  | _ + 1, _, [] => []
  | f + 1, prev, c :: t =>
    if matchKwAt kw prev (c :: t) then
      kwSubF kw f (some (((c :: t).take kw.length).getLastD c)) ((c :: t).drop kw.length)
    else c :: kwSubF kw f (some c) t

/-- The loop of log_monitor.py:110-111: strip each level keyword in list
order, one full substitution pass per keyword. -/
def removeLevels (s : List Char) : List Char :=
  COMMON_LOG_LEVELS.foldl (fun acc kw => kwSubF kw acc.length none acc) s

/-- Character class of log_monitor.py:114: `[`, `]`, whitespace, dash,
underscore, pipe. -/
def isNoiseChar (c : Char) : Bool :=
  c = '[' || c = ']' || isPySpace c || c = '-' || c = '_' || c = '|'

/-- `re.sub(r'^[\[\]\s\-_|]+', '', s)` (log_monitor.py:114): drop the leading
run of noise characters (a no-op when the run is empty). -/
def stripNoiseRun (s : List Char) : List Char := s.dropWhile isNoiseChar

/-- Character class of the logger-name pattern (log_monitor.py:115):
letters, digits, dot, underscore, dash. -/
def isLoggerChar (c : Char) : Bool :=
  ('A' ≤ c && c ≤ 'Z') || ('a' ≤ c && c ≤ 'z') || isDigit c ||
  c = '.' || c = '_' || c = '-'

/-- `re.sub(r'^[A-Za-z0-9._-]+\s*:', '', s)` (log_monitor.py:115): drop a
leading logger-name run followed by optional whitespace and a colon; the
class, the whitespace and the colon are mutually disjoint, so the greedy
match is exact and the substitution fires at most once (anchored). -/
def stripLoggerName (s : List Char) : List Char :=
  let a := s.takeWhile isLoggerChar
  if a.isEmpty then s
  else
    match (s.dropWhile isLoggerChar).dropWhile isPySpace with
    | c :: t => if c = ':' then t else s
    | [] => s

/-- `re.sub(r'^\s*\d+\s*', '', s)` (log_monitor.py:116): drop leading
whitespace, a non-empty digit run, and trailing whitespace; a no-op when no
digit follows the leading whitespace. -/
def stripLeadingDigits (s : List Char) : List Char :=
  let r := s.dropWhile isPySpace
  if (r.takeWhile isDigit).isEmpty then s
  else (r.dropWhile isDigit).dropWhile isPySpace

/-- Character class of log_monitor.py:117: brackets, parentheses, braces. -/
def isBracketChar (c : Char) : Bool :=
  c = '[' || c = ']' || c = '(' || c = ')' ||
  c = Char.ofNat 0x7B || c = Char.ofNat 0x7D

/-- `re.sub(r'^\s*[\[\](){}]+\s*', '', s)` (log_monitor.py:117) — the class
holds brackets, parentheses and braces: drop leading whitespace, a non-empty
bracket run, and trailing whitespace; a no-op when no bracket follows. -/
def stripLeadingBrackets (s : List Char) : List Char :=
  let r := s.dropWhile isPySpace
  if (r.takeWhile isBracketChar).isEmpty then s
  else (r.dropWhile isBracketChar).dropWhile isPySpace

/-- The stripping pipeline of `extract_clean_title` up to and including the
final `strip()` (log_monitor.py:104-120), before the length checks. -/
def titleResidual (error_line : List Char) : List Char :=
  stripPy (stripLeadingBrackets (stripLeadingDigits (stripLoggerName
    (stripNoiseRun (removeLevels
      (tsSubF (clean_line error_line).length (clean_line error_line)))))))

/-- The literal fallback title of log_monitor.py:124. -/
def fallbackTitle : List Char := str "Error detected in logs"

/-- `AdvancedLogMonitor.extract_clean_title` (log_monitor.py:98-130): the
stripping pipeline followed by the length checks of lines 123-128. -/
def extract_clean_title (error_line : List Char) : List Char :=
  let r := titleResidual error_line
  if r.length < 10 then fallbackTitle
  else if r.length > 200 then r.take 197 ++ str "..."
  else r

/-! ## Timestamp normalisation: `AdvancedLogMonitor.parse_timestamp`
(log_monitor.py:86-96).  `datetime.strptime` is embedded as a
format-directed parser with CPython's `_strptime` directive semantics:
each numeric directive matches its alternation of digit patterns in order
(with backtracking through a candidate list), whitespace in a format
matches a non-empty whitespace run, the whole string must be consumed, and
the resulting field values must form a valid `datetime`. -/

/-- Parsed field values; CPython defaults: year 1900, month 1, day 1. -/
structure TsVals where
  year : Nat
  mon : Nat
  day : Nat
  hour : Nat
  minute : Nat
  sec : Nat
  micro : Nat
deriving DecidableEq

/-- Default field values used by `strptime` for absent directives. -/
def defaultVals : TsVals := ⟨1900, 1, 1, 0, 0, 0, 0⟩

/-- One `strptime` directive of the four formats used by the source. -/
inductive Dir where
  | lit (c : Char)
  | ws
  | year4
  | mon
  | day
  | hour
  | minute
  | sec
  | frac
  | monAbbr
deriving DecidableEq

/-- Two-digit candidate for a numeric directive: the first two characters as
a two-digit number, when they are digits and `ok2` accepts the value. -/
def cand2 (ok2 : Nat → Bool) (set : TsVals → Nat → TsVals) (v : TsVals) :
    List Char → List (TsVals × List Char)
  | d1 :: d2 :: t =>
    if isDigit d1 && isDigit d2 && ok2 (10 * digitVal d1 + digitVal d2) then
      [(set v (10 * digitVal d1 + digitVal d2), t)]
    else []
  | _ => []

/-- One-digit candidate for a numeric directive. -/
def cand1 (ok1 : Nat → Bool) (set : TsVals → Nat → TsVals) (v : TsVals) :
    List Char → List (TsVals × List Char)
  | d1 :: t => if isDigit d1 && ok1 (digitVal d1) then [(set v (digitVal d1), t)] else []
  | [] => []

/-- The lower-cased three-letter month abbreviations of `calendar`, in order. -/
def monthAbbrs : List (List Char) :=
  [str "jan", str "feb", str "mar", str "apr", str "may", str "jun",
   str "jul", str "aug", str "sep", str "oct", str "nov", str "dec"]

/-- Candidates for the month-abbreviation directive `%b` (case-insensitive). -/
def monAbbrCands (v : TsVals) (s : List Char) : List (TsVals × List Char) :=
  match s with
  | c1 :: c2 :: c3 :: t =>
    match (List.range 12).find? (fun i =>
        ciStarts (monthAbbrs.getD i []) [c1, c2, c3]) with
    | some i => [({ v with mon := i + 1 }, t)]
    | none => []
  | _ => []

/-- Candidates for the fraction directive `%f` (`[0-9]` one to six times,
greedy): longest run first, scaled to microseconds. -/
def fracCands (v : TsVals) (s : List Char) : List (TsVals × List Char) :=
  let run := (s.takeWhile isDigit).length
  let kmax := min 6 run
  (List.range kmax).map (fun j =>
    let k := kmax - j
    ({ v with micro := ((s.take k).foldl (fun a c => 10 * a + digitVal c) 0) *
        10 ^ (6 - k) }, s.drop k))

/-- The ordered candidate list of one directive at one position, following
the CPython `_strptime` patterns: `%Y` exactly four digits; `%m` is
`1[0-2]|0[1-9]|[1-9]`; `%d` is `3[01]|[12]\d|0[1-9]|[1-9]`; `%H` is
`2[0-3]|[0-1]\d|\d`; `%M` is `[0-5]\d|\d`; `%S` is `6[0-1]|[0-5]\d|\d`;
whitespace matches a non-empty whitespace run; a literal matches itself. -/
def dirCands (d : Dir) (v : TsVals) (s : List Char) : List (TsVals × List Char) :=
  match d with
  | .lit c =>
    match s with
    | c' :: t => if c' = c then [(v, t)] else []
    | [] => []
  | .ws =>
    let t := s.dropWhile isPySpace
    if t.length < s.length then [(v, t)] else []
  | .year4 =>
    match s with
    | d1 :: d2 :: d3 :: d4 :: t =>
      if isDigit d1 && isDigit d2 && isDigit d3 && isDigit d4 then
        [({ v with year := 1000 * digitVal d1 + 100 * digitVal d2 +
            10 * digitVal d3 + digitVal d4 }, t)]
      else []
    | _ => []
  | .mon =>
    cand2 (fun n => (10 ≤ n && n ≤ 12) || (1 ≤ n && n ≤ 9))
      (fun v n => { v with mon := n }) v s ++
    cand1 (fun n => 1 ≤ n && n ≤ 9) (fun v n => { v with mon := n }) v s
  | .day =>
    cand2 (fun n => (30 ≤ n && n ≤ 31) || (10 ≤ n && n ≤ 29) || (1 ≤ n && n ≤ 9))
      (fun v n => { v with day := n }) v s ++
    cand1 (fun n => 1 ≤ n && n ≤ 9) (fun v n => { v with day := n }) v s
  | .hour =>
    cand2 (fun n => n ≤ 23) (fun v n => { v with hour := n }) v s ++
    cand1 (fun _ => true) (fun v n => { v with hour := n }) v s
  | .minute =>
    cand2 (fun n => n ≤ 59) (fun v n => { v with minute := n }) v s ++
    cand1 (fun _ => true) (fun v n => { v with minute := n }) v s
  | .sec =>
    cand2 (fun n => (60 ≤ n && n ≤ 61) || n ≤ 59) (fun v n => { v with sec := n }) v s ++
    cand1 (fun _ => true) (fun v n => { v with sec := n }) v s
  | .frac => fracCands v s
  | .monAbbr => monAbbrCands v s

/-- First success in a list of attempts. -/
def firstSome : List (Option α) → Option α
  | [] => none
  | some a :: _ => some a
  | none :: os => firstSome os

/-- Run a directive list over the input with backtracking through each
directive's candidate list; the whole input must be consumed
(`unconverted data remains` otherwise). -/
def runDirs : List Dir → TsVals → List Char → Option TsVals
  | [], v, s => if s.isEmpty then some v else none
  | d :: ds, v, s =>
    firstSome ((dirCands d v s).map (fun p => runDirs ds p.1 p.2))

/-- Is `y` a leap year (proleptic Gregorian, as `datetime` uses)? -/
def isLeap (y : Nat) : Bool := y % 4 = 0 && (y % 100 ≠ 0 || y % 400 = 0)

/-- Number of days in a month. -/
def daysInMonth (y m : Nat) : Nat :=
  if m = 2 then (if isLeap y then 29 else 28)
  else if m = 4 || m = 6 || m = 9 || m = 11 then 30
  else 31

/-- `datetime.strptime(s, fmt)` for one of the four source formats:
directive-list match plus the `datetime` constructor's validation
(year at least 1, day within the month, seconds at most 59 — the regex
admits leap seconds 60 and 61 but the constructor rejects them). -/
def strptime (dirs : List Dir) (s : List Char) : Option TsVals :=
  match runDirs dirs defaultVals s with
  | some v =>
    if 1 ≤ v.year && 1 ≤ v.day && v.day ≤ daysInMonth v.year v.mon && v.sec ≤ 59 then
      some v
    else none
  | none => none

/-- Format `"%Y-%m-%d %H:%M:%S"`. -/
def fmtYmdHMS : List Dir :=
  [.year4, .lit '-', .mon, .lit '-', .day, .ws, .hour, .lit ':', .minute, .lit ':', .sec]

/-- Format `"%Y-%m-%d %H:%M:%S,%f"`. -/
def fmtYmdHMSf : List Dir :=
  [.year4, .lit '-', .mon, .lit '-', .day, .ws, .hour, .lit ':', .minute, .lit ':', .sec,
   .lit ',', .frac]

/-- Format `"%b %d %H:%M:%S"`. -/
def fmtBdHMS : List Dir :=
  [.monAbbr, .ws, .day, .ws, .hour, .lit ':', .minute, .lit ':', .sec]

/-- Format `"%H:%M:%S.%f"`. -/
def fmtHMSf : List Dir :=
  [.hour, .lit ':', .minute, .lit ':', .sec, .lit '.', .frac]

/-- Decimal digit character. -/
def digitChar (n : Nat) : Char := Char.ofNat (48 + n % 10)

/-- Two-digit zero-padded rendering. -/
def pad2 (n : Nat) : List Char := [digitChar (n / 10), digitChar n]

/-- Four-digit zero-padded rendering. -/
def pad4 (n : Nat) : List Char :=
  [digitChar (n / 1000), digitChar (n / 100), digitChar (n / 10), digitChar n]

/-- Six-digit zero-padded rendering. -/
def pad6 (n : Nat) : List Char :=
  [digitChar (n / 100000), digitChar (n / 10000), digitChar (n / 1000),
   digitChar (n / 100), digitChar (n / 10), digitChar n]

/-- `datetime.isoformat()`: the microsecond part is printed only when
non-zero. -/
def isoformat (v : TsVals) : List Char :=
  pad4 v.year ++ '-' :: pad2 v.mon ++ '-' :: pad2 v.day ++ 'T' :: pad2 v.hour ++
  ':' :: pad2 v.minute ++ ':' :: pad2 v.sec ++
  (if v.micro = 0 then [] else '.' :: pad6 v.micro)

/-- `AdvancedLogMonitor.parse_timestamp` (log_monitor.py:86-96).  The raw
string is truncated at its first comma (`ts_str.split(',')[0]`) and the
four formats are tried in order on the truncated string; `datetime.now()`
is passed in as `nowv`. -/
def parse_timestamp (ts_str : Option (List Char)) (nowv : List Char) : List Char :=
  match ts_str with
  | none => nowv
  | some raw =>
    let t := raw.takeWhile (fun c => c ≠ ',')
    match strptime fmtYmdHMS t with
    | some v => isoformat v
    | none =>
      match strptime fmtYmdHMSf t with
      | some v => isoformat v
      | none =>
        match strptime fmtBdHMS t with
        | some v => isoformat v
        | none =>
          match strptime fmtHMSf t with
          | some v => isoformat v
          | none => nowv

/-- Modelled from the spec: section 4.2 describes `normalize` as parsing
"the raw substring against a fixed ordered list of format templates,
trying each until one succeeds", with the "now" fallback when the substring
is absent or unparsable — i.e. the templates applied to the raw substring
itself, without the source's comma truncation.  Used to compare the claimed
behaviour with `parse_timestamp`. -/
def normalize_specMode (ts_str : Option (List Char)) (nowv : List Char) : List Char :=
  match ts_str with
  | none => nowv
  | some raw =>
    match strptime fmtYmdHMS raw with
    | some v => isoformat v
    | none =>
      match strptime fmtYmdHMSf raw with
      | some v => isoformat v
      | none =>
        match strptime fmtBdHMS raw with
        | some v => isoformat v
        | none =>
          match strptime fmtHMSf raw with
          | some v => isoformat v
          | none => nowv

/-! ## ErrorBlockExtractor: `AdvancedLogMonitor.extract_errors`
(log_monitor.py:208-244).  The index loop with its inner
capture-until-next-timestamp loop is embedded as a single structural scan
carrying the open block, if any: a line with a detectable timestamp closes
the open block and is then itself examined as a fresh line, exactly as the
outer `while` re-examines the stopping index.  `datetime.now()` and
`str(self.log_path)` are threaded in as `nowv` and `src`.  The
`try ... except` of the loop body cannot fire in this embedding (every
operation is total), so the `failed_to_process` path is dead here. -/

/-- The record dictionary built at log_monitor.py:224-230. -/
structure ErrorRecord where
  timestamp : List Char
  level : List Char
  error_line : List Char
  error_context : List Char
  source : List Char
deriving DecidableEq

/-- The levels that trigger a block (log_monitor.py:216). -/
def triggerLevels : List (List Char) := [str "ERROR", str "CRITICAL", str "FATAL"]

/-- An open multi-line block: the trigger line's detected timestamp and
level, its sanitized text, and the continuation lines in reverse order. -/
structure Block where
  ts : Option (List Char)
  level : List Char
  firstLine : List Char
  restRev : List (List Char)

/-- `'\n'.join(context_lines)` (log_monitor.py:223). -/
def joinNL : List (List Char) → List Char
  | [] => []
  | [x] => x
  | x :: y :: xs => x ++ '\n' :: joinNL (y :: xs)

/-- Emit the record of a finished block (log_monitor.py:224-230). -/
def emitBlock (nowv src : List Char) (b : Block) : ErrorRecord :=
  { timestamp := parse_timestamp b.ts nowv
    level := b.level
    error_line := b.firstLine
    error_context := joinNL (b.firstLine :: b.restRev.reverse)
    source := src }

/-- Open a block at a trigger line (log_monitor.py:214-218). -/
def openBlock (l : List Char) : Block :=
  { ts := detect_timestamp l
    level := detect_log_level l
    firstLine := clean_line l
    restRev := [] }

/-- The scan of log_monitor.py:210-243 with the open block as explicit
state. -/
def extractGo (nowv src : List Char) : List (List Char) → Option Block → List ErrorRecord
  | [], none => []
  | [], some b => [emitBlock nowv src b]
  | l :: rest, none =>
    if detect_log_level l ∈ triggerLevels then
      extractGo nowv src rest (some (openBlock l))
    else
      extractGo nowv src rest none
  | l :: rest, some b =>
    if (detect_timestamp l).isSome then
      emitBlock nowv src b ::
        (if detect_log_level l ∈ triggerLevels then
          extractGo nowv src rest (some (openBlock l))
        else
          extractGo nowv src rest none)
    else
      extractGo nowv src rest (some { b with restRev := clean_line l :: b.restRev })

/-- `AdvancedLogMonitor.extract_errors` (log_monitor.py:208-244), as the
pure list of emitted records. -/
def extract_errors (nowv src : List Char) (lines : List (List Char)) : List ErrorRecord :=
  extractGo nowv src lines none

/-! ## IssueReconciler: `AdvancedLogMonitor.save_error` (log_monitor.py:164-206)
against `IssueService` (src/api/controllers/services.py) and the SQL of
`IssueQueries` (src/api/config/queries.py).

Pydantic v2 models are embedded by their declared field lists: constructing
a model keeps exactly the declared fields, silently ignoring unknown
keyword arguments (the default `extra='ignore'`), and `model_dump()`
returns all declared fields.  Executing a SQL statement through
`PostgresService` requires a parameter entry for every `:name` bind in the
statement; a missing bind raises (SQLAlchemy), which `IssueService` wraps
and `save_error` catches, counting `errors_failed_to_insert`.

The in-memory issues table is a list of rows; the JSON audit-file append of
log_monitor.py:167-169 is not modelled (it does not affect the issue
store).  The LLM path is disabled (`use_llm=False` fallback of
log_monitor.py:158-162): the title is `extract_clean_title(error_line)`
and the description is `error_context`. -/

/-- A Python value as it appears in a parameter dictionary. -/
inductive PyVal where
  | pstr (s : List Char)
  | pint (n : Nat)
  | plist (l : List (List Char))
  | pnone
deriving DecidableEq

/-- A row of the `issues` table (src/api/models/models.py:10-38). -/
structure IssueRow where
  id : Nat
  title : List Char
  description : List Char
  occurrence : Nat
  issue_logs : List (List Char)
  status : List Char
  severity : List Char
  error_type : List Char
deriving DecidableEq

/-- The declared fields of `IssueUpdate` (src/api/schemas/schema.py:21-29):
`issue_logs` is NOT among them. -/
def IssueUpdateFields : List String :=
  ["title", "description", "analysis", "application_type", "occurrence",
   "status", "severity", "error_type"]

/-- The declared fields of `IssueCreate = IssueBase`
(src/api/schemas/schema.py:8-19): `issue_logs` is NOT among them. -/
def IssueCreateFields : List String :=
  ["title", "description", "analysis", "application_type", "occurrence",
   "status", "severity", "error_type"]

/-- Pydantic v2 model construction followed by `model_dump()`: keep exactly
the declared fields, taking each from the keyword arguments when present
and `None`-defaulting otherwise; unknown keyword arguments are ignored. -/
def pydanticDump (fields : List String) (kwargs : List (String × PyVal)) :
    List (String × PyVal) :=
  fields.map (fun f =>
    (f, match kwargs.lookup f with
        | some v => v
        | none => PyVal.pnone))

/-- The bind parameters of `IssueQueries.UPDATE_ISSUE`
(src/api/config/queries.py:35-42). -/
def UPDATE_ISSUE_binds : List String := ["occurrence", "issue_logs", "updated_at", "issue_id"]

/-- The bind parameters of `IssueQueries.CREATE_ISSUE`
(src/api/config/queries.py:20-33); `created_at`/`updated_at` are `now()`
literals there, not binds. -/
def CREATE_ISSUE_binds : List String :=
  ["id", "title", "description", "analysis", "issue_logs", "application_type",
   "occurrence", "status", "severity", "error_type"]

/-- SQLAlchemy's requirement that every bind name of a statement has an
entry in the parameter dictionary (a `None` entry binds NULL and is fine). -/
def bindsSatisfied (required : List String) (params : List (String × PyVal)) : Bool :=
  required.all (fun b => (params.lookup b).isSome)

/-- Read a `Nat` out of a parameter value (SQL integer coercion). -/
def pyNat : PyVal → Nat
  | .pint n => n
  | _ => 0

/-- Read a string list out of a parameter value (SQL array coercion). -/
def pyStrList : PyVal → List (List Char)
  | .plist l => l
  | _ => []

/-- `IssueService.update_issue` (services.py:102-144): look the row up by
id, assemble the parameter dictionary `model_dump() + updated_at +
issue_id`, and execute `UPDATE_ISSUE`, which sets `occurrence` and
`issue_logs` on the matching row; any missing bind raises instead. -/
def update_issue (store : List IssueRow) (issue_id : Nat)
    (request : List (String × PyVal)) : Except (List Char) (List IssueRow) :=
  match store.find? (fun r => r.id = issue_id) with
  | none => .error (str "NOT_FOUND")
  | some _ =>
    let params := request ++
      [("updated_at", PyVal.pstr (str "utcnow")), ("issue_id", PyVal.pint issue_id)]
    if bindsSatisfied UPDATE_ISSUE_binds params then
      .ok (store.map (fun r =>
        if r.id = issue_id then
          { r with
            occurrence := pyNat ((params.lookup "occurrence").getD .pnone)
            issue_logs := pyStrList ((params.lookup "issue_logs").getD .pnone) }
        else r))
    else .error (str "A value is required for a bind parameter")

/-- `IssueService.create_issue` (services.py:74-100): assemble
`model_dump() + created_at + updated_at` and execute `CREATE_ISSUE`; the
statement's binds include `id` and `issue_logs`, and any missing bind
raises instead of inserting. -/
def create_issue (store : List IssueRow) (request : List (String × PyVal)) :
    Except (List Char) (IssueRow × List IssueRow) :=
  let params := request ++
    [("created_at", PyVal.pstr (str "utcnow")), ("updated_at", PyVal.pstr (str "utcnow"))]
  if bindsSatisfied CREATE_ISSUE_binds params then
    let getS := fun (f : String) =>
      match (params.lookup f).getD .pnone with
      | PyVal.pstr s => s
      | _ => []
    let row : IssueRow :=
      { id := pyNat ((params.lookup "id").getD .pnone)
        title := getS "title"
        description := getS "description"
        occurrence := pyNat ((params.lookup "occurrence").getD .pnone)
        issue_logs := pyStrList ((params.lookup "issue_logs").getD .pnone)
        status := getS "status"
        severity := getS "severity"
        error_type := getS "error_type" }
    .ok (row, store ++ [row])
  else .error (str "A value is required for a bind parameter")

/-- Modelled from the spec: `IssueService.get_issue_by_title` is called at
log_monitor.py:178 and its SQL (`GET_ISSUE_BY_TITLE`,
src/api/config/queries.py:49-56) exists, but no method of that name is
defined under src/; section 6 of the spec declares the capability
`IssueStore.get_by_title(title) -> Issue | absent`, embedded here as exact
title lookup. -/
def get_issue_by_title (store : List IssueRow) (title : List Char) : Option IssueRow :=
  store.find? (fun r => r.title = title)

/-- The severity derivation of log_monitor.py:196:
`"high" if error_record['level'] in ['ERROR', 'CRITICAL', 'FATAL'] else "medium"`. -/
def severityFor (level : List Char) : List Char :=
  if level ∈ triggerLevels then str "high" else str "medium"

/-- Outcome of one `save_error` call as observable on the issue store. -/
inductive SaveOutcome where
  | created (id : Nat)
  | updated (id : Nat) (occ : Nat)
  | failed (msg : List Char)
deriving DecidableEq

/-- `AdvancedLogMonitor.save_error` (log_monitor.py:164-206), regex/fallback
title path: dedup lookup by title; on a hit build `IssueUpdate(occurrence=
occ+1, issue_logs=logs+[context])` and call `update_issue`; on a miss build
`IssueCreate(...)` and call `create_issue`; any raised error is caught
(log_monitor.py:204-206) leaving the store unchanged. -/
def save_error (store : List IssueRow) (rec : ErrorRecord) :
    SaveOutcome × List IssueRow :=
  let title := extract_clean_title rec.error_line
  match get_issue_by_title store title with
  | some existing =>
    let newOcc := existing.occurrence + 1
    let newLogs := existing.issue_logs ++ [rec.error_context]
    let issue_update := pydanticDump IssueUpdateFields
      [("occurrence", PyVal.pint newOcc), ("issue_logs", PyVal.plist newLogs)]
    match update_issue store existing.id issue_update with
    | .ok store' => (.updated existing.id newOcc, store')
    | .error e => (.failed e, store)
  | none =>
    let issue_create := pydanticDump IssueCreateFields
      [("title", PyVal.pstr title), ("description", PyVal.pstr rec.error_context),
       ("severity", PyVal.pstr (severityFor rec.level)),
       ("error_type", PyVal.pstr (str "general")),
       ("application_type", PyVal.pstr (str "Test")),
       ("occurrence", PyVal.pint 1),
       ("issue_logs", PyVal.plist [rec.error_context])]
    match create_issue store issue_create with
    | .ok (row, store') => (.created row.id, store')
    | .error e => (.failed e, store)

/-! ## Concrete fixtures used by the claim theorems and witnesses. -/

/-- An extracted record whose context is its single trigger line. -/
def recBoom : ErrorRecord :=
  { timestamp := str "NOW", level := str "ERROR", error_line := str "ERROR boom",
    error_context := str "ERROR boom", source := str "test.log" }

/-- A second record with the same error line (hence the same extracted
title) but a different context. -/
def recBoom2 : ErrorRecord :=
  { timestamp := str "NOW", level := str "ERROR", error_line := str "ERROR boom",
    error_context := str "second context", source := str "test.log" }

/-- A pre-existing issue whose title matches the extracted title of
`recBoom` and `recBoom2`. -/
def issue0 : IssueRow :=
  { id := 7, title := str "Error detected in logs",
    description := str "original description", occurrence := 1,
    issue_logs := [str "first context"], status := str "open",
    severity := str "high", error_type := str "general" }

/-- A 250-character input that the title pipeline leaves untouched. -/
def e250 : List Char := List.replicate 250 'x'

/-- A two-line batch: one trigger line and one continuation line. -/
def linesC4 : List (List Char) := [str "ERROR boom", str "ctx line"]

/-- The single record extracted from `linesC4`. -/
def recC4 : ErrorRecord :=
  { timestamp := str "NOW", level := str "ERROR", error_line := str "ERROR boom",
    error_context := str "ERROR boom" ++ '\n' :: str "ctx line", source := str "src" }

/-! ## Helper lemmas. -/

/-- `ansiSubF` is the identity on strings without the escape character,
given enough fuel. -/
theorem ansiSubF_eq_self : ∀ (f : Nat) (l : List Char), l.length ≤ f →
    escChar ∉ l → ansiSubF f l = l := by
  intro f
  induction f with
  | zero => intro l _ _; rfl
  | succ f ih =>
    intro l hlen hesc
    cases l with
    | nil => rfl
    | cons c t =>
      have hc : ¬c = escChar := fun h => hesc (h ▸ List.mem_cons_self c t)
      have ht : escChar ∉ t := fun h => hesc (List.mem_cons_of_mem c h)
      simp only [ansiSubF, if_neg hc]
      rw [ih t (by simpa using Nat.lt_succ_iff.mp (Nat.lt_of_lt_of_le (Nat.lt_succ_of_le (Nat.le_refl _)) (by simpa using hlen))) ht]

/-- `dropWhile` is idempotent. -/
theorem dropWhile_dropWhile (p : Char → Bool) (xs : List Char) :
    (xs.dropWhile p).dropWhile p = xs.dropWhile p := by
  induction xs with
  | nil => rfl
  | cons c t ih =>
    by_cases h : p c
    · simp [List.dropWhile_cons, h, ih]
    · simp [List.dropWhile_cons, h]

/-- `rstripPy` is idempotent. -/
theorem rstripPy_idem (l : List Char) : rstripPy (rstripPy l) = rstripPy l := by
  unfold rstripPy
  rw [List.reverse_reverse, dropWhile_dropWhile]

/-- Members of `rstripPy l` are members of `l`. -/
theorem mem_rstripPy {c : Char} {l : List Char} (h : c ∈ rstripPy l) : c ∈ l := by
  unfold rstripPy at h
  rw [List.mem_reverse] at h
  exact List.mem_reverse.mp (List.IsSuffix.mem h (List.dropWhile_suffix _))

/-- `clean_line` reduces to `rstripPy` on escape-free input. -/
theorem clean_line_eq_rstrip {l : List Char} (h : escChar ∉ l) :
    clean_line l = rstripPy l := by
  unfold clean_line
  rw [ansiSubF_eq_self l.length l (Nat.le_refl _) h]

/-- If a character list avoids `'\n'`, its `takeWhile (· ≠ '\n')` is itself. -/
theorem takeWhile_ne_eq_self {f : List Char} (hf : '\n' ∉ f) :
    f.takeWhile (fun c => c ≠ '\n') = f := by
  rw [List.takeWhile_eq_self_iff]
  intro x hx
  simp only [decide_eq_true_eq]
  exact fun hEq => hf (hEq ▸ hx)

/-- `takeWhile (· ≠ '\n')` of `f ++ '\n' :: rest` is `f` when `f` avoids
`'\n'`. -/
theorem takeWhile_ne_append {f rest : List Char} (hf : '\n' ∉ f) :
    (f ++ '\n' :: rest).takeWhile (fun c => c ≠ '\n') = f := by
  induction f with
  | nil => simp [List.takeWhile_cons]
  | cons c t ih =>
    have hc : c ≠ '\n' := fun h => hf (h ▸ List.mem_cons_self c t)
    have ht : '\n' ∉ t := fun h => hf (List.mem_cons_of_mem c h)
    simp only [List.cons_append, List.takeWhile_cons, decide_eq_true_eq]
    rw [if_pos hc, ih ht]

/-- The context of a block starts with its first line. -/
theorem joinNL_take (f : List Char) (xs : List (List Char)) :
    (joinNL (f :: xs)).take f.length = f := by
  cases xs with
  | nil => exact List.take_length f
  | cons y ys =>
    show (f ++ '\n' :: joinNL (y :: ys)).take f.length = f
    exact List.take_left f _

/-- The first-newline-segment of a block's context is its first line. -/
theorem joinNL_takeWhile (f : List Char) (xs : List (List Char)) (hf : '\n' ∉ f) :
    (joinNL (f :: xs)).takeWhile (fun c => c ≠ '\n') = f := by
  cases xs with
  | nil => exact takeWhile_ne_eq_self hf
  | cons y ys =>
    show (f ++ '\n' :: joinNL (y :: ys)).takeWhile (fun c => c ≠ '\n') = f
    exact takeWhile_ne_append hf

/-- Every record emitted by the scan carries a triggering level, provided
any open block does. -/
theorem extractGo_level_mem (nowv src : List Char) :
    ∀ (lines : List (List Char)) (ob : Option Block),
      (∀ b, ob = some b → b.level ∈ triggerLevels) →
      ∀ r ∈ extractGo nowv src lines ob, r.level ∈ triggerLevels := by
  intro lines
  induction lines with
  | nil =>
    intro ob hob r hr
    cases ob with
    | none => simp [extractGo] at hr
    | some b =>
      simp only [extractGo, List.mem_singleton] at hr
      subst hr
      exact hob b rfl
  | cons l rest ih =>
    intro ob hob r hr
    cases ob with
    | none =>
      by_cases h : detect_log_level l ∈ triggerLevels
      · rw [extractGo, if_pos h] at hr
        refine ih _ ?_ r hr
        intro b hb
        cases hb
        exact h
      · rw [extractGo, if_neg h] at hr
        exact ih _ (by intro b hb; cases hb) r hr
    | some b =>
      by_cases hts : (detect_timestamp l).isSome
      · rw [extractGo, if_pos hts] at hr
        rcases List.mem_cons.mp hr with hEq | hr'
        · subst hEq
          exact hob b rfl
        · by_cases h : detect_log_level l ∈ triggerLevels
          · rw [if_pos h] at hr'
            refine ih _ ?_ r hr'
            intro b' hb'
            cases hb'
            exact h
          · rw [if_neg h] at hr'
            exact ih _ (by intro b' hb'; cases hb') r hr'
      · rw [extractGo, if_neg hts] at hr
        refine ih _ ?_ r hr
        intro b' hb'
        cases hb'
        exact hob b rfl

/-- Every record emitted by the scan has its sanitized first line at the
head of its context, provided every input line and any open block's first
line avoid `'\n'`. -/
theorem extractGo_context_head (nowv src : List Char) :
    ∀ (lines : List (List Char)) (ob : Option Block),
      (∀ l ∈ lines, '\n' ∉ clean_line l) →
      (∀ b, ob = some b → '\n' ∉ b.firstLine) →
      ∀ r ∈ extractGo nowv src lines ob,
        r.error_context.take r.error_line.length = r.error_line ∧
        r.error_context.takeWhile (fun c => c ≠ '\n') = r.error_line := by
  intro lines
  induction lines with
  | nil =>
    intro ob hlines hob r hr
    cases ob with
    | none => simp [extractGo] at hr
    | some b =>
      simp only [extractGo, List.mem_singleton] at hr
      subst hr
      exact ⟨joinNL_take _ _, joinNL_takeWhile _ _ (hob b rfl)⟩
  | cons l rest ih =>
    intro ob hlines hob r hr
    have hl : '\n' ∉ clean_line l := hlines l (List.mem_cons_self l rest)
    have hrest : ∀ l' ∈ rest, '\n' ∉ clean_line l' :=
      fun l' hl' => hlines l' (List.mem_cons_of_mem l hl')
    cases ob with
    | none =>
      by_cases h : detect_log_level l ∈ triggerLevels
      · rw [extractGo, if_pos h] at hr
        refine ih _ hrest ?_ r hr
        intro b hb
        cases hb
        exact hl
      · rw [extractGo, if_neg h] at hr
        exact ih _ hrest (by intro b hb; cases hb) r hr
    | some b =>
      by_cases hts : (detect_timestamp l).isSome
      · rw [extractGo, if_pos hts] at hr
        rcases List.mem_cons.mp hr with hEq | hr'
        · subst hEq
          exact ⟨joinNL_take _ _, joinNL_takeWhile _ _ (hob b rfl)⟩
        · by_cases h : detect_log_level l ∈ triggerLevels
          · rw [if_pos h] at hr'
            refine ih _ hrest ?_ r hr'
            intro b' hb'
            cases hb'
            exact hl
          · rw [if_neg h] at hr'
            exact ih _ hrest (by intro b' hb'; cases hb') r hr'
      · rw [extractGo, if_neg hts] at hr
        refine ih _ hrest ?_ r hr
        intro b' hb'
        cases hb'
        exact hob b rfl

/-- A successful `firstSome` over a mapped list comes from some element. -/
theorem firstSome_map_eq_some {α β : Type} {l : List β} {f : β → Option α} {a : α}
    (h : firstSome (l.map f) = some a) : ∃ x ∈ l, f x = some a := by
  induction l with
  | nil => simp [firstSome] at h
  | cons x xs ih =>
    cases hfx : f x with
    | some b =>
      refine ⟨x, List.mem_cons_self x xs, ?_⟩
      rw [hfx]
      simpa [firstSome, hfx] using h
    | none =>
      have h' : firstSome (xs.map f) = some a := by
        simpa [firstSome, hfx] using h
      obtain ⟨y, hy, hfy⟩ := ih h'
      exact ⟨y, List.mem_cons_of_mem x hy, hfy⟩

/-- A two-digit candidate leaves a suffix of the input. -/
theorem cand2_suffix (ok2 : Nat → Bool) (set : TsVals → Nat → TsVals) (v : TsVals) :
    ∀ (s : List Char), ∀ p ∈ cand2 ok2 set v s, p.2 <:+ s := by
  intro s p hp
  match s with
  | [] => simp [cand2] at hp
  | [d1] => simp [cand2] at hp
  | d1 :: d2 :: t =>
    simp only [cand2] at hp
    split at hp
    · rw [List.mem_singleton] at hp
      subst hp
      calc t <:+ d2 :: t := List.suffix_cons _ _
        _ <:+ d1 :: d2 :: t := List.suffix_cons _ _
    · simp at hp

/-- A one-digit candidate leaves a suffix of the input. -/
theorem cand1_suffix (ok1 : Nat → Bool) (set : TsVals → Nat → TsVals) (v : TsVals) :
    ∀ (s : List Char), ∀ p ∈ cand1 ok1 set v s, p.2 <:+ s := by
  intro s p hp
  match s with
  | [] => simp [cand1] at hp
  | d1 :: t =>
    simp only [cand1] at hp
    split at hp
    · rw [List.mem_singleton] at hp
      subst hp
      exact List.suffix_cons _ _
    · simp at hp

/-- Every candidate of a directive leaves a suffix of the input. -/
theorem dirCands_suffix (d : Dir) (v : TsVals) (s : List Char) :
    ∀ p ∈ dirCands d v s, p.2 <:+ s := by
  intro p hp
  cases d with
  | lit c =>
    cases s with
    | nil => simp [dirCands] at hp
    | cons c' t =>
      simp only [dirCands] at hp
      split at hp
      · rw [List.mem_singleton] at hp
        subst hp
        exact List.suffix_cons c' t
      · simp at hp
  | ws =>
    simp only [dirCands] at hp
    split at hp
    · rw [List.mem_singleton] at hp
      subst hp
      exact List.dropWhile_suffix isPySpace
    · simp at hp
  | year4 =>
    match s with
    | [] => simp [dirCands] at hp
    | [d1] => simp [dirCands] at hp
    | [d1, d2] => simp [dirCands] at hp
    | [d1, d2, d3] => simp [dirCands] at hp
    | d1 :: d2 :: d3 :: d4 :: t =>
      simp only [dirCands] at hp
      split at hp
      · rw [List.mem_singleton] at hp
        subst hp
        calc t <:+ d4 :: t := List.suffix_cons _ _
          _ <:+ d3 :: d4 :: t := List.suffix_cons _ _
          _ <:+ d2 :: d3 :: d4 :: t := List.suffix_cons _ _
          _ <:+ d1 :: d2 :: d3 :: d4 :: t := List.suffix_cons _ _
      · simp at hp
  | frac =>
    simp only [dirCands, fracCands, List.mem_map] at hp
    obtain ⟨j, _, hj⟩ := hp
    rw [← hj]
    exact List.drop_suffix _ s
  | monAbbr =>
    match s with
    | [] => simp [dirCands, monAbbrCands] at hp
    | [c1] => simp [dirCands, monAbbrCands] at hp
    | [c1, c2] => simp [dirCands, monAbbrCands] at hp
    | c1 :: c2 :: c3 :: t =>
      simp only [dirCands, monAbbrCands] at hp
      split at hp
      · rw [List.mem_singleton] at hp
        subst hp
        calc t <:+ c3 :: t := List.suffix_cons _ _
          _ <:+ c2 :: c3 :: t := List.suffix_cons _ _
          _ <:+ c1 :: c2 :: c3 :: t := List.suffix_cons _ _
      · simp at hp
  | mon =>
    simp only [dirCands] at hp
    rcases List.mem_append.mp hp with h2 | h1
    · exact cand2_suffix _ _ _ s p h2
    · exact cand1_suffix _ _ _ s p h1
  | day =>
    simp only [dirCands] at hp
    rcases List.mem_append.mp hp with h2 | h1
    · exact cand2_suffix _ _ _ s p h2
    · exact cand1_suffix _ _ _ s p h1
  | hour =>
    simp only [dirCands] at hp
    rcases List.mem_append.mp hp with h2 | h1
    · exact cand2_suffix _ _ _ s p h2
    · exact cand1_suffix _ _ _ s p h1
  | minute =>
    simp only [dirCands] at hp
    rcases List.mem_append.mp hp with h2 | h1
    · exact cand2_suffix _ _ _ s p h2
    · exact cand1_suffix _ _ _ s p h1
  | sec =>
    simp only [dirCands] at hp
    rcases List.mem_append.mp hp with h2 | h1
    · exact cand2_suffix _ _ _ s p h2
    · exact cand1_suffix _ _ _ s p h1

/-- A successful run of a directive list containing a literal means the
literal character occurs in the input. -/
theorem runDirs_lit_mem (c : Char) :
    ∀ (ds : List Dir) (v : TsVals) (s : List Char) (w : TsVals),
      runDirs ds v s = some w → Dir.lit c ∈ ds → c ∈ s := by
  intro ds
  induction ds with
  | nil =>
    intro v s w _ hmem
    cases hmem
  | cons d ds ih =>
    intro v s w h hmem
    have h' : firstSome ((dirCands d v s).map (fun p => runDirs ds p.1 p.2)) = some w := h
    obtain ⟨p, hp, hrun⟩ := firstSome_map_eq_some h'
    rcases List.mem_cons.mp hmem with hEq | hmem'
    · subst hEq
      cases s with
      | nil => simp [dirCands] at hp
      | cons c' t =>
        simp only [dirCands] at hp
        split at hp
        · rename_i hc
          exact hc ▸ List.mem_cons_self c' t
        · simp at hp
    · exact List.IsSuffix.mem (ih p.1 p.2 w hrun hmem') (dirCands_suffix d v s p hp)

/-- The comma-fraction format can never parse a comma-truncated string. -/
theorem strptime_comma_fmt_none (t : List Char) (ht : ',' ∉ t) :
    strptime fmtYmdHMSf t = none := by
  unfold strptime
  cases hrun : runDirs fmtYmdHMSf defaultVals t with
  | none => rfl
  | some w =>
    exact absurd
      (runDirs_lit_mem ',' fmtYmdHMSf defaultVals t w hrun (by decide)) ht

/-- The comma never survives `takeWhile (fun c => c ≠ ',')`. -/
theorem comma_not_mem_takeWhile (raw : List Char) :
    ',' ∉ raw.takeWhile (fun c => c ≠ ',') := by
  intro h
  have := List.mem_takeWhile_imp h
  simp at this

/-- `findLevel` returns the first keyword of the list with a whole-word
case-insensitive occurrence, and `UNKNOWN` when none occurs. -/
theorem findLevel_characterisation (s : List Char) :
    ∀ kws : List (List Char),
      (∃ l₁ l₂ kw, kws = l₁ ++ kw :: l₂ ∧ findLevel kws s = kw ∧
        hasLevelWord kw s = true ∧ ∀ k ∈ l₁, hasLevelWord k s = false) ∨
      (findLevel kws s = str "UNKNOWN" ∧ ∀ k ∈ kws, hasLevelWord k s = false) := by
  intro kws
  induction kws with
  | nil => exact Or.inr ⟨rfl, fun k hk => absurd hk (List.not_mem_nil k)⟩
  | cons kw kws ih =>
    by_cases h : hasLevelWord kw s = true
    · exact Or.inl ⟨[], kws, kw, rfl, by simp [findLevel, h], h,
        fun k hk => absurd hk (List.not_mem_nil k)⟩
    · rcases ih with ⟨l₁, l₂, kw', hEq, hfind, hword, hfirst⟩ | ⟨hfind, hall⟩
      · refine Or.inl ⟨kw :: l₁, l₂, kw', by rw [hEq]; rfl, ?_, hword, ?_⟩
        · simpa [findLevel, h] using hfind
        · intro k hk
          rcases List.mem_cons.mp hk with hk1 | hk2
          · subst hk1
            simpa using h
          · exact hfirst k hk2
      · refine Or.inr ⟨by simpa [findLevel, h] using hfind, ?_⟩
        intro k hk
        rcases List.mem_cons.mp hk with hk1 | hk2
        · subst hk1
          simpa using h
        · exact hall k hk2

/-! ## The claims. -/

/-- Claim C2: the batch `["INFO ok", "ERROR boom", "  at stack frame 1",
"  at stack frame 2", "2024-01-01 12:00:01 INFO next"]` yields exactly one
record, whose context is the newline-join of the three sanitized
ERROR-and-continuation lines; the trailing timestamped INFO line is not
part of the record. -/
theorem spec_C2_single_block :
    extract_errors (str "NOW") (str "test.log")
      [str "INFO ok", str "ERROR boom", str "  at stack frame 1",
       str "  at stack frame 2", str "2024-01-01 12:00:01 INFO next"] =
    [{ timestamp := str "NOW", level := str "ERROR", error_line := str "ERROR boom",
       error_context := str "ERROR boom" ++ '\n' :: str "  at stack frame 1" ++
         '\n' :: str "  at stack frame 2",
       source := str "test.log" }] := by decide

/-- Claim C4: every record produced by `extract_errors` has `error_context`
starting with `error_line`, and `error_line` is exactly the text up to the
first newline of `error_context` (the whole context when single-line).
The hypothesis states that no input line contains an interior newline
(readlines output: a line's only newline is trailing and is stripped by
`clean_line`). -/
theorem spec_C4_context_starts_with_line (nowv src : List Char)
    (lines : List (List Char)) (h : ∀ l ∈ lines, '\n' ∉ clean_line l) :
    ∀ r ∈ extract_errors nowv src lines,
      r.error_context.take r.error_line.length = r.error_line ∧
      r.error_context.takeWhile (fun c => c ≠ '\n') = r.error_line :=
  fun r hr =>
    extractGo_context_head nowv src lines none h
      (fun _ hb => Option.noConfusion hb) r hr

/-- Witness for C4 at the concrete batch `linesC4`. -/
theorem spec_C4_context_starts_with_line_witness :
    (∀ l ∈ linesC4, '\n' ∉ clean_line l) ∧
    recC4 ∈ extract_errors (str "NOW") (str "src") linesC4 ∧
    recC4.error_context.take recC4.error_line.length = recC4.error_line ∧
    recC4.error_context.takeWhile (fun c => c ≠ '\n') = recC4.error_line := by
  have hl : ∀ l ∈ linesC4, '\n' ∉ clean_line l := by decide
  have hm : recC4 ∈ extract_errors (str "NOW") (str "src") linesC4 := by decide
  have hc := spec_C4_context_starts_with_line (str "NOW") (str "src") linesC4 hl recC4 hm
  exact ⟨hl, hm, hc.1, hc.2⟩

/-- Claim C5: every record produced by `extract_errors` has level `ERROR`,
`CRITICAL` or `FATAL`; no record with level `WARN`, `WARNING`, `INFO`,
`DEBUG` or `UNKNOWN` is ever emitted. -/
theorem spec_C5_only_trigger_levels (nowv src : List Char)
    (lines : List (List Char)) :
    ∀ r ∈ extract_errors nowv src lines,
      r.level ∈ triggerLevels ∧
      r.level ∉ [str "WARN", str "WARNING", str "INFO", str "DEBUG", str "UNKNOWN"] := by
  intro r hr
  have h1 := extractGo_level_mem nowv src lines none
    (fun b hb => Option.noConfusion hb) r hr
  refine ⟨h1, ?_⟩
  have h2 : r.level = str "ERROR" ∨ r.level = str "CRITICAL" ∨ r.level = str "FATAL" := by
    simpa [triggerLevels] using h1
  rcases h2 with h | h | h <;> rw [h] <;> decide

/-- Witness for C5 at the concrete batch `linesC4`. -/
theorem spec_C5_only_trigger_levels_witness :
    recC4 ∈ extract_errors (str "NOW") (str "src") linesC4 ∧
    recC4.level ∈ triggerLevels ∧
    recC4.level ∉ [str "WARN", str "WARNING", str "INFO", str "DEBUG", str "UNKNOWN"] := by
  have hm : recC4 ∈ extract_errors (str "NOW") (str "src") linesC4 := by decide
  have hc := spec_C5_only_trigger_levels (str "NOW") (str "src") linesC4 recC4 hm
  exact ⟨hm, hc.1, hc.2⟩

/-- Claim C10: for every record produced by `extract_errors`, the severity
derivation of `save_error` (log_monitor.py:196) yields `"high"`: the
`"medium"` branch is unreachable for records produced by this core. -/
theorem spec_C10_severity_always_high (nowv src : List Char)
    (lines : List (List Char)) :
    ∀ r ∈ extract_errors nowv src lines, severityFor r.level = str "high" := by
  intro r hr
  have h1 := extractGo_level_mem nowv src lines none
    (fun b hb => Option.noConfusion hb) r hr
  unfold severityFor
  rw [if_pos h1]

/-- Witness for C10 at the concrete batch `linesC4`. -/
theorem spec_C10_severity_always_high_witness :
    recC4 ∈ extract_errors (str "NOW") (str "src") linesC4 ∧
    severityFor recC4.level = str "high" := by
  have hm : recC4 ∈ extract_errors (str "NOW") (str "src") linesC4 := by decide
  exact ⟨hm, spec_C10_severity_always_high (str "NOW") (str "src") linesC4 recC4 hm⟩

/-- Claim C6 counterexample: the sanitizer is not idempotent on all strings.
Removing the escape sequence `ESC A` from `ESC ESC A A` juxtaposes the
remaining `ESC` with the remaining `A`, forming a new escape sequence that
only a second pass removes. -/
theorem spec_C6_sanitize_counterexample :
    clean_line (clean_line [escChar, escChar, 'A', 'A']) ≠
      clean_line [escChar, escChar, 'A', 'A'] := by decide

/-- Claim C6 as amended: on every line without the escape character,
`sanitize` is idempotent. -/
theorem spec_C6_sanitize_idempotent_no_esc (l : List Char) (h : escChar ∉ l) :
    clean_line (clean_line l) = clean_line l := by
  rw [clean_line_eq_rstrip h, clean_line_eq_rstrip (fun hm => h (mem_rstripPy hm))]
  exact rstripPy_idem l

/-- Witness for the amended C6 at a concrete escape-free line. -/
theorem spec_C6_sanitize_idempotent_no_esc_witness :
    escChar ∉ str "INFO ok  " ∧
    clean_line (clean_line (str "INFO ok  ")) = clean_line (str "INFO ok  ") :=
  ⟨by decide, spec_C6_sanitize_idempotent_no_esc (str "INFO ok  ") (by decide)⟩

/-- Claim C7: `extract_clean_title` returns the literal fallback exactly in
the branch where the stripped residual is shorter than 10 characters, and
otherwise a string of at most 200 characters; a 250-character residual
yields its first 197 characters followed by `"..."`; a residual of length
10 to 200 is returned unmodified. -/
theorem spec_C7_title_length_bounds (e : List Char) :
    (((titleResidual e).length < 10 ∧ extract_clean_title e = fallbackTitle) ∨
      (10 ≤ (titleResidual e).length ∧ (extract_clean_title e).length ≤ 200)) ∧
    ((titleResidual e).length = 250 →
      extract_clean_title e = (titleResidual e).take 197 ++ str "...") ∧
    (10 ≤ (titleResidual e).length → (titleResidual e).length ≤ 200 →
      extract_clean_title e = titleResidual e) := by
  refine ⟨?_, ?_, ?_⟩
  · by_cases h10 : (titleResidual e).length < 10
    · exact Or.inl ⟨h10, by rw [extract_clean_title, if_pos h10]⟩
    · refine Or.inr ⟨Nat.le_of_not_lt h10, ?_⟩
      by_cases h200 : (titleResidual e).length > 200
      · rw [extract_clean_title, if_neg h10, if_pos h200]
        rw [List.length_append, List.length_take]
        have h3 : (str "...").length = 3 := rfl
        omega
      · rw [extract_clean_title, if_neg h10, if_neg h200]
        omega
  · intro h250
    rw [extract_clean_title, if_neg (by omega), if_pos (by omega)]
  · intro hge hle
    rw [extract_clean_title, if_neg (by omega), if_neg (by omega)]

/-- Witness for C7 at a 250-character residual. -/
theorem spec_C7_title_length_bounds_witness :
    (titleResidual e250).length = 250 ∧
    extract_clean_title e250 = (titleResidual e250).take 197 ++ str "..." := by
  have h := (spec_C7_title_length_bounds e250).2.1
  exact ⟨by decide, h (by decide)⟩

/-- Claim C8: `detect_log_level` returns the first keyword of the fixed
priority order `ERROR, WARN, WARNING, INFO, DEBUG, CRITICAL, FATAL` with a
whole-word case-insensitive occurrence in the sanitized line, `UNKNOWN`
when none occurs; a line containing both `CRITICAL` and `WARN` (in either
order) classifies as `WARN`, the first-listed keyword. -/
theorem spec_C8_priority_classification :
    (∀ line : List Char,
      (∃ l₁ l₂ kw, COMMON_LOG_LEVELS = l₁ ++ kw :: l₂ ∧
        detect_log_level line = kw ∧
        hasLevelWord kw (clean_line line) = true ∧
        ∀ k ∈ l₁, hasLevelWord k (clean_line line) = false) ∨
      (detect_log_level line = str "UNKNOWN" ∧
        ∀ k ∈ COMMON_LOG_LEVELS, hasLevelWord k (clean_line line) = false)) ∧
    detect_log_level (str "CRITICAL meltdown WARN") = str "WARN" ∧
    detect_log_level (str "WARN meltdown CRITICAL") = str "WARN" :=
  ⟨fun line => findLevel_characterisation (clean_line line) COMMON_LOG_LEVELS,
   by decide, by decide⟩

/-- Witness for C8: the concrete classifications, via the theorem. -/
theorem spec_C8_priority_classification_witness :
    detect_log_level (str "CRITICAL meltdown WARN") = str "WARN" :=
  spec_C8_priority_classification.2.1

/-- Claim C9 counterexample: on the raw substring
`"2024-01-01 10:00:00,123456"` the source's `parse_timestamp` does not
return the ISO-8601 rendering of the first template succeeding on the raw
substring (the comma-fraction template, with fraction `.123456`): it
truncates at the comma first and renders without the fraction. -/
theorem spec_C9_raw_template_counterexample :
    parse_timestamp (some (str "2024-01-01 10:00:00,123456")) (str "NOW") =
      str "2024-01-01T10:00:00" ∧
    normalize_specMode (some (str "2024-01-01 10:00:00,123456")) (str "NOW") =
      str "2024-01-01T10:00:00.123456" ∧
    parse_timestamp (some (str "2024-01-01 10:00:00,123456")) (str "NOW") ≠
      normalize_specMode (some (str "2024-01-01 10:00:00,123456")) (str "NOW") := by
  refine ⟨by decide, by decide, by decide⟩

/-- Claim C9 as amended: `parse_timestamp` truncates the raw substring at
its first comma and returns the result of trying the templates, in order,
on the truncated substring (equivalently: the spec-described normalize
applied to the truncated substring); consequently the comma-fraction
template never succeeds, and the `now` fallback is taken exactly when the
substring is absent or no template parses the truncated string. -/
theorem spec_C9_comma_truncation (raw nowv : List Char) :
    parse_timestamp (some raw) nowv =
      normalize_specMode (some (raw.takeWhile (fun c => c ≠ ','))) nowv ∧
    strptime fmtYmdHMSf (raw.takeWhile (fun c => c ≠ ',')) = none :=
  ⟨rfl, strptime_comma_fmt_none _ (comma_not_mem_takeWhile raw)⟩

/-- Claim C1 (code bug): reconciling two records with identical extracted
titles against an empty store does not yield `Created` then `Updated`; both
calls fail and the store stays empty, because `IssueCreate` declares
neither `issue_logs` nor `id` while `CREATE_ISSUE` requires both as bind
parameters (the pydantic constructor silently drops the unknown
`issue_logs` keyword). -/
theorem spec_C1_reconcile_never_creates :
    (save_error [] recBoom).1 =
      SaveOutcome.failed (str "A value is required for a bind parameter") ∧
    (save_error [] recBoom).2 = [] ∧
    (save_error (save_error [] recBoom).2 recBoom2).1 =
      SaveOutcome.failed (str "A value is required for a bind parameter") ∧
    (save_error (save_error [] recBoom).2 recBoom2).2 = [] ∧
    extract_clean_title recBoom.error_line = extract_clean_title recBoom2.error_line ∧
    "issue_logs" ∈ CREATE_ISSUE_binds ∧ "id" ∈ CREATE_ISSUE_binds ∧
    "issue_logs" ∉ IssueCreateFields ∧ "id" ∉ IssueCreateFields := by decide

/-- Claim C3 (code bug): reconciling a record whose title matches an
existing issue does not increment `occurrence` or append to `issue_logs`:
`IssueUpdate` does not declare `issue_logs`, so the keyword is dropped and
the `UPDATE_ISSUE` statement's `issue_logs` bind is unsatisfied — the
update fails and the issue is left entirely unchanged (title and
description included). -/
theorem spec_C3_update_drops_logs :
    (save_error [issue0] recBoom2).1 =
      SaveOutcome.failed (str "A value is required for a bind parameter") ∧
    (save_error [issue0] recBoom2).2 = [issue0] ∧
    extract_clean_title recBoom2.error_line = issue0.title ∧
    "issue_logs" ∈ UPDATE_ISSUE_binds ∧ "issue_logs" ∉ IssueUpdateFields := by decide
